import Mathlib

/-!
Verification of the client-side data-synchronization layer of the
school LMS client (repository `Hist-ria-Acess-vel-Mark-XIV-`).

Shallow embedding of:
* `src/utils/gamificationEngine.ts` — the pure achievement rule engine;
* `src/contexts/StudentDataContext.tsx` — quiz completion, class join,
  notification merging, cache-first reads, paginated activity loading,
  chunked module fetching, and the derived grade report.

Firestore documents are modelled as Lean structures; optional / possibly
missing fields are `Option` types (the TypeScript code reads them with
`|| 0`-style defaulting, modelled with `Option.getD`).  The system clock
(`new Date()`), which the engine reads when stamping unlock dates, is an
explicit `today : String` parameter.
-/

namespace LMS

/-! ### Achievement rule engine (`src/utils/gamificationEngine.ts`) -/

/-- Criterion kinds.  The TS field is a string; `other` stands for any
unknown / forward-compatible criterion string, which the engine ignores
(the `default:` branch of the `switch`). -/
inductive CriterionType where
  | quizzes
  | modules
  | activities
  | other (s : String)
  deriving DecidableEq, Repr

/-- `UserGamificationStats` counters; fields read defensively with
`|| 0` in the source, hence `Option Nat` with `getD 0`. -/
structure UserGamificationStats where
  quizzesCompleted : Option Nat
  modulesCompleted : Option Nat
  activitiesCompleted : Option Nat
  deriving DecidableEq, Repr

/-- `Achievement` as consumed by the engine (`types.ts`): admin fields
`status`, `criterionType`, `criterionCount` are optional. -/
structure AchievementRule where
  id : String
  title : String
  unlocked : Bool
  date : String
  status : Option String
  criterionType : Option CriterionType
  criterionCount : Option Int
  deriving DecidableEq, Repr

/-- The counter of `currentStats` selected by a known criterion type
(`switch (achievement.criterionType)` body, with the `|| 0` defaults). -/
def statCounter (currentStats : UserGamificationStats) : CriterionType → Nat
  | .quizzes => currentStats.quizzesCompleted.getD 0
  | .modules => currentStats.modulesCompleted.getD 0
  | .activities => currentStats.activitiesCompleted.getD 0
  | .other _ => 0

/-- `checkNewAchievements(currentStats, allAchievements, unlockedMap)`.
`unlockedMap` holds the ids of already-unlocked achievements (the TS map
stores truthy `{date, seen}` records keyed by id, so the truthiness test
`unlockedMap[achievement.id]` is id membership).  `today` is the value
of `new Date().toLocaleDateString()` read when an unlock is stamped. -/
def checkNewAchievements (currentStats : UserGamificationStats)
    (allAchievements : List AchievementRule) (unlockedMap : List String)
    (today : String) : List AchievementRule :=
  allAchievements.filterMap (fun achievement =>
    if unlockedMap.contains achievement.id then none
    else if achievement.status = some "Inativa" then none
    else
      let target := achievement.criterionCount.getD 0
      if target ≤ 0 then none
      else
        let isUnlocked : Bool :=
          match achievement.criterionType with
          | some CriterionType.quizzes =>
              decide (target ≤ (statCounter currentStats CriterionType.quizzes : Int))
          | some CriterionType.modules =>
              decide (target ≤ (statCounter currentStats CriterionType.modules : Int))
          | some CriterionType.activities =>
              decide (target ≤ (statCounter currentStats CriterionType.activities : Int))
          | some (CriterionType.other _) => false
          | none => false
        if isUnlocked then
          some { achievement with unlocked := true, date := today }
        else none)

/-- Spec-side unlock condition (written from the spec's words, for the
refinement statement): not already unlocked, not inactive, target
strictly positive, known criterion type whose counter meets the target. -/
def specUnlockCond (s : UserGamificationStats) (unlockedMap : List String)
    (a : AchievementRule) : Bool :=
  !unlockedMap.contains a.id
    && !decide (a.status = some "Inativa")
    && decide (0 < a.criterionCount.getD 0)
    && (match a.criterionType with
        | some CriterionType.quizzes =>
            decide (a.criterionCount.getD 0 ≤ (s.quizzesCompleted.getD 0 : Int))
        | some CriterionType.modules =>
            decide (a.criterionCount.getD 0 ≤ (s.modulesCompleted.getD 0 : Int))
        | some CriterionType.activities =>
            decide (a.criterionCount.getD 0 ≤ (s.activitiesCompleted.getD 0 : Int))
        | some (CriterionType.other _) => false
        | none => false)

/-- Annotation applied to a rule on unlock (`{...achievement,
unlocked: true, date: today}`). -/
def stampUnlock (today : String) (a : AchievementRule) : AchievementRule :=
  { a with unlocked := true, date := today }

/-- Concrete stats used in closed instances below. -/
def c9Stats : UserGamificationStats :=
  { quizzesCompleted := some 5, modulesCompleted := some 0, activitiesCompleted := some 0 }

/-- Concrete active rule (5 quizzes needed, 5 done) used in closed instances. -/
def c9Rule : AchievementRule :=
  { id := "a1", title := "Quiz Novato", unlocked := false, date := ""
  , status := some "Ativa", criterionType := some CriterionType.quizzes
  , criterionCount := some 5 }

/-! ### Quiz completion (`handleQuizComplete`, StudentDataContext.tsx 530-592) -/

/-- The per-quiz result document `users/{uid}/quiz_results/{quizId}`;
`attempts` and `bestScore` are read with `|| 0` defaults. -/
structure QuizResultDoc where
  attempts : Option Nat
  bestScore : Option Nat
  lastScore : Option Nat
  deriving DecidableEq, Repr

/-- Result of a quiz completion: the returned xp and the written doc. -/
structure QuizCompleteResult where
  xpEarned : Nat
  newDoc : QuizResultDoc
  deriving DecidableEq, Repr

/-- `previousAttempts = resultSnap.exists() ? data().attempts || 0 : 0`. -/
def prevAttemptsOf (prevDoc : Option QuizResultDoc) : Nat :=
  match prevDoc with
  | some d => d.attempts.getD 0
  | none => 0

/-- Stored best score read defensively (`data().bestScore || 0`). -/
def bestScoreOf (prevDoc : Option QuizResultDoc) : Nat :=
  match prevDoc with
  | some d => d.bestScore.getD 0
  | none => 0

/-- `handleQuizComplete` restricted to its persistent effect: given the
current result doc (`none` if absent) and the score, returns the earned
xp and the merged result document.  `attempts: increment(1)` becomes
`previous + 1` (Firestore sets a missing field to 1). -/
def handleQuizComplete (prevDoc : Option QuizResultDoc) (score : Nat) :
    QuizCompleteResult :=
  let previousAttempts := prevAttemptsOf prevDoc
  let xpEarned := if previousAttempts = 0 then score * 10 else 0
  let best :=
    match prevDoc with
    | some d => max (d.bestScore.getD 0) score
    | none => score
  { xpEarned := xpEarned
  , newDoc :=
    { attempts := some (previousAttempts + 1)
    , bestScore := some best
    , lastScore := some score } }

/-! ### Class join (`handleJoinClass`, StudentDataContext.tsx 657-733) -/

/-- The `classes/{id}` document as read by the join flow.  `students`
entries are modelled by their ids.  `studentIds` may be absent on
legacy documents (the code branches on `Array.isArray`). -/
structure ClassJoinDoc where
  id : String
  code : String
  name : String
  teacherId : String
  studentIds : Option (List String)
  students : List String
  studentCount : Int
  deriving DecidableEq, Repr

/-- Class doc plus the teacher-history counter touched by the join
transaction. -/
structure JoinState where
  classDoc : ClassJoinDoc
  totalStudents : Int
  deriving DecidableEq, Repr

/-- Firestore `arrayUnion`: append iff not already present. -/
def arrayUnion (l : List String) (x : String) : List String :=
  if l.contains x then l else l ++ [x]

/-- The local pre-transaction membership test (lines 675-683):
`studentIds.includes(user.id)` when the array exists, else a scan of
`students`. -/
def isMemberCheck (data : ClassJoinDoc) (uid : String) : Bool :=
  match data.studentIds with
  | some ids => ids.contains uid
  | none => data.students.contains uid

/-- The `runTransaction` body (lines 692-718): re-read `studentIds`
(`|| []`), abort with the domain error if the user is present, else add
to `students`/`studentIds` and increment both counters atomically. -/
def joinClassTx (uid : String) (st : JoinState) : Except String JoinState :=
  let currentStudentIds := st.classDoc.studentIds.getD []
  if currentStudentIds.contains uid then
    Except.error "User already in class"
  else
    Except.ok
      { classDoc :=
        { st.classDoc with
          students := arrayUnion st.classDoc.students uid
        , studentIds := some (arrayUnion currentStudentIds uid)
        , studentCount := st.classDoc.studentCount + 1 }
      , totalStudents := st.totalStudents + 1 }

/-- Outcome surfaced by `handleJoinClass`: the returned boolean, the
toast message, and the resulting store state. -/
structure JoinOutcome where
  success : Bool
  message : String
  state : JoinState
  deriving DecidableEq, Repr

/-- `handleJoinClass` for a class found by its code: local membership
check first, then the transaction; the transaction's domain error is
translated to the specific already-a-member message, any other error to
the generic one. -/
def handleJoinClass (uid : String) (st : JoinState) : JoinOutcome :=
  if isMemberCheck st.classDoc uid then
    { success := false, message := "Você já está nesta turma.", state := st }
  else
    match joinClassTx uid st with
    | Except.error e =>
        { success := false
        , message :=
            if e = "User already in class" then "Você já está nesta turma."
            else "Erro ao entrar na turma."
        , state := st }
    | Except.ok st2 =>
        { success := true, message := "Entrou na turma com sucesso!", state := st2 }

/-- Concrete join state whose class already contains the user `u1`. -/
def c5State : JoinState :=
  { classDoc :=
    { id := "k1", code := "ABC123", name := "Turma A", teacherId := "t1"
    , studentIds := some ["u1", "u2"], students := ["u1", "u2"]
    , studentCount := 2 }
  , totalStudents := 2 }

/-! ### Notification merge (StudentDataContext.tsx 167-182, 496-497) -/

/-- A notification as held in local state; `timestamp` is the epoch
value of the parsed timestamp string. -/
structure Notif where
  id : String
  read : Bool
  timestamp : Int
  deriving DecidableEq, Repr

/-- Per-item read-flag recomputation:
`read: n.read || readReceipts.has(n.id)`. -/
def applyReceipts (readReceipts : List String) (n : Notif) : Notif :=
  { n with read := n.read || readReceipts.contains n.id }

/-- The `notifications` memo: concatenate both sources, recompute the
read flags from the receipts, and sort descending by timestamp
(the comparator `new Date(b.timestamp) - new Date(a.timestamp)` under a
stable sort). -/
def mergeNotifications (privateNotifications broadcastNotifications : List Notif)
    (readReceipts : List String) : List Notif :=
  let combined := privateNotifications ++ broadcastNotifications
  let processed := combined.map (applyReceipts readReceipts)
  processed.mergeSort (fun a b => decide (b.timestamp ≤ a.timestamp))

/-- `unreadNotificationCount = notifications.filter(n => !n.read).length`. -/
def unreadNotificationCount (privateNotifications broadcastNotifications : List Notif)
    (readReceipts : List String) : Nat :=
  ((mergeNotifications privateNotifications broadcastNotifications readReceipts).filter
    (fun n => !n.read)).length

/-- A private notification and a broadcast one sharing the id `n1`. -/
def dupPrivateN : Notif := { id := "n1", read := false, timestamp := 5 }

/-- Broadcast twin of `dupPrivateN` (same id, distinct timestamp). -/
def dupBroadcastN : Notif := { id := "n1", read := false, timestamp := 3 }

/-! ### Cache-first query executor (StudentDataContext.tsx 201-234, 325-338, 380-390) -/

/-- One cache-first read.  `cacheRead` is the outcome of
`getDocs(q, source cache)` (its error payload is irrelevant and
swallowed), `networkRead` the outcome of plain `getDocs(q)` whose error
propagates.  Instantiated by the per-query executor of `refreshData`
(lines 380-390), the classes read (325-338) and the first activity page
(207-213): use the cache snapshot iff it exists and is non-empty. -/
def runQueryCacheFirst {α : Type} (forceRefresh : Bool)
    (cacheRead : Except Unit (List α)) (networkRead : Except String (List α)) :
    Except String (List α) :=
  if !forceRefresh then
    match cacheRead with
    | Except.ok snap => if snap.isEmpty then networkRead else Except.ok snap
    | Except.error _ => networkRead
  else networkRead

/-- A cache read counts as a miss when it throws or returns no docs. -/
def cacheMiss {α : Type} (cacheRead : Except Unit (List α)) : Bool :=
  match cacheRead with
  | Except.ok snap => snap.isEmpty
  | Except.error _ => true

/-! ### Activity documents, pagination and chunked fetches
(StudentDataContext.tsx 43, 186-253, 368-377, 446-453) -/

/-- A submission entry from an activity's embedded `submissions` array
(the fields read by the grade report). -/
structure SubmissionDoc where
  studentId : String
  status : String
  grade : Option Int
  deriving DecidableEq, Repr

/-- An `activities/{id}` document, restricted to the fields consumed by
pagination and the grade report.  `createdAt` is the epoch value of the
creation timestamp. -/
structure ActivityDoc where
  id : String
  title : String
  classId : String
  unidade : Option String
  points : Int
  isVisible : Bool
  createdAt : Int
  submissions : List SubmissionDoc
  deriving DecidableEq, Repr

/-- The documents strictly after the cursor document (Firestore
`startAfter` over the served, ordered feed); the cursor is the id of
the last document of the previous page. -/
def afterId : List ActivityDoc → String → List ActivityDoc
  | [], _ => []
  | d :: ds, cid => if d.id == cid then ds else afterId ds cid

/-- Result triple of `fetchStudentActivities`. -/
structure FetchResult where
  activities : List ActivityDoc
  lastDoc : Option String
  hasMore : Bool
  deriving DecidableEq, Repr

/-- `ACTIVITIES_PER_PAGE`. -/
def ACTIVITIES_PER_PAGE : Nat := 10

/-- `fetchStudentActivities(classIds, startAfterDoc)` against a served
feed already ordered by `createdAt` descending.  Note the filter uses
`classIds.slice(0, 10)` — only the first 10 class ids — and the page is
`limit(ACTIVITIES_PER_PAGE)` after the optional cursor.  `lastDoc` is
the last document of the page, `hasMore` whether the page is full. -/
def fetchStudentActivities (feed : List ActivityDoc) (classIds : List String)
    (startAfterDoc : Option String) : FetchResult :=
  if classIds.isEmpty then { activities := [], lastDoc := none, hasMore := false }
  else
    let classChunk := classIds.take 10
    let filtered := feed.filter (fun a => classChunk.contains a.classId && a.isVisible)
    let page :=
      match startAfterDoc with
      | none => filtered.take ACTIVITIES_PER_PAGE
      | some cid => (afterId filtered cid).take ACTIVITIES_PER_PAGE
    { activities := page
    , lastDoc := (page.getLast?).map (fun d => d.id)
    , hasMore := page.length == ACTIVITIES_PER_PAGE }

/-- The pagination state held by the provider. -/
structure FeedState where
  activities : List ActivityDoc
  lastActivityDoc : Option String
  hasMoreActivities : Bool
  isLoadingMoreActivities : Bool
  deriving DecidableEq, Repr

/-- The initial page load performed by `refreshData` (lines 468-481). -/
def initialActivitiesLoad (feed : List ActivityDoc) (classIds : List String) :
    FeedState :=
  let r := fetchStudentActivities feed classIds none
  { activities := r.activities
  , lastActivityDoc := r.lastDoc
  , hasMoreActivities := r.hasMore
  , isLoadingMoreActivities := false }

/-- `loadMoreActivities` (lines 237-253): no-op without a cursor, while
loading, or with no classes; otherwise fetch the next page and append
`result.activities.filter(a => !newIds.has(a.id))` where `newIds` is
built from `result.activities` itself, then update cursor and flag. -/
def loadMoreActivities (feed : List ActivityDoc) (classIds : List String)
    (st : FeedState) : FeedState :=
  if st.lastActivityDoc.isNone || st.isLoadingMoreActivities || classIds.isEmpty then st
  else
    let result := fetchStudentActivities feed classIds st.lastActivityDoc
    let newIds := result.activities.map (fun a => a.id)
    { activities := st.activities ++ result.activities.filter (fun a => !newIds.contains a.id)
    , lastActivityDoc := result.lastDoc
    , hasMoreActivities := result.hasMore
    , isLoadingMoreActivities := false }

/-- A concrete activity document of a given class/index. -/
def mkAct (i : Nat) (cid : String) (ts : Int) : ActivityDoc :=
  { id := "a" ++ toString i, title := "t" ++ toString i, classId := cid
  , unidade := none, points := 10, isVisible := true, createdAt := ts
  , submissions := [] }

/-- A feed of 11 visible activities of class `c1`, newest first. -/
def c1Feed : List ActivityDoc :=
  (List.range 11).map (fun i => mkAct (i + 1) "c1" (11 - (i : Int)))

/-- Eleven class ids, exercising the >10 filter-set case. -/
def c2Ids : List String :=
  ["c01", "c02", "c03", "c04", "c05", "c06", "c07", "c08", "c09", "c10", "c11"]

/-- A visible activity belonging to the 11th class id of `c2Ids`. -/
def c2Act : ActivityDoc := mkAct 99 "c11" 7

/-- A `modules/{id}` document, restricted to the fields of the chunked
class-module fetch. -/
structure ModuleDoc where
  id : String
  status : String
  classIds : List String
  deriving DecidableEq, Repr

/-- Chunks of at most 10 elements, in order (the
`for (i = 0; i < n; i += 10) slice(i, i + 10)` loop of lines 369-376). -/
def chunksOf10 {α : Type} : List α → List (List α)
  | [] => []
  | x :: xs => (x :: xs.take 9) :: chunksOf10 (xs.drop 9)
  termination_by l => l.length
  decreasing_by simp [List.length_drop]; omega

/-- One chunk's query: `modules` with `status == "Ativo"` and
`classIds array-contains-any chunk`. -/
def moduleChunkQuery (mods : List ModuleDoc) (chunk : List String) : List ModuleDoc :=
  mods.filter (fun m => m.status == "Ativo" && m.classIds.any (fun c => chunk.contains c))

/-- First-occurrence dedup by id — the `modulesMap.has(d.id)` merge of
lines 446-453. -/
def dedupById (l : List ModuleDoc) : List ModuleDoc :=
  l.foldl (fun acc m => if acc.any (fun x => x.id == m.id) then acc else acc ++ [m]) []

/-- The chunked class-module fetch: one query per ≤10-id chunk, results
unioned (first occurrence wins). -/
def fetchClassModules (mods : List ModuleDoc) (classIds : List String) : List ModuleDoc :=
  dedupById (((chunksOf10 classIds).map (moduleChunkQuery mods)).flatten)

/-! ### Grade report (StudentDataContext.tsx 499-527) -/

/-- An enrolled class as used by the grade report (id and display name). -/
structure EnrolledClass where
  id : String
  name : String
  deriving DecidableEq, Repr

/-- One line of a per-unidade report. -/
structure GradeDetail where
  id : String
  title : String
  grade : Int
  maxPoints : Int
  deriving DecidableEq, Repr

/-- Accumulated per-unidade entry. -/
structure UnitReport where
  totalPoints : Int
  activities : List GradeDetail
  deriving DecidableEq, Repr

/-- Per-class report: display name and map of unidade → entry. -/
structure ClassReport where
  className : String
  unidades : List (String × UnitReport)
  deriving DecidableEq, Repr

/-- JS-object keyed update: replace the value under an existing key in
place, else append the binding. -/
def setKey {β : Type} (m : List (String × β)) (k : String) (v : β) :
    List (String × β) :=
  if m.any (fun p => p.1 == k) then
    m.map (fun p => if p.1 == k then (k, v) else p)
  else m ++ [(k, v)]

/-- JS-object keyed lookup. -/
def getKey {β : Type} (m : List (String × β)) (k : String) : Option β :=
  (m.find? (fun p => p.1 == k)).map (fun p => p.2)

/-- The initial report: one empty entry per enrolled class. -/
def emptyGradeReport (studentClasses : List EnrolledClass) :
    List (String × ClassReport) :=
  studentClasses.foldl
    (fun rep cls => setKey rep cls.id { className := cls.name, unidades := [] }) []

/-- Processing of one activity by the grade-report memo: skip unless the
activity's class has a report entry, the current user's submission is
found with status `Corrigido` and a numeric grade, and the activity has
a (truthy) `unidade`; otherwise add the grade to the unidade's total and
push the detail line. -/
def gradeStep (uid : String) (rep : List (String × ClassReport))
    (activity : ActivityDoc) : List (String × ClassReport) :=
  match getKey rep activity.classId with
  | none => rep
  | some classReport =>
    match activity.submissions.find? (fun s => s.studentId == uid) with
    | none => rep
    | some s =>
      if s.status == "Corrigido" then
        match s.grade with
        | none => rep
        | some g =>
          match activity.unidade with
          | none => rep
          | some u =>
            if u == "" then rep
            else
              let unitReport := (getKey classReport.unidades u).getD
                { totalPoints := 0, activities := [] }
              let unitReport2 : UnitReport :=
                { totalPoints := unitReport.totalPoints + g
                , activities := unitReport.activities ++
                    [{ id := activity.id, title := activity.title
                     , grade := g, maxPoints := activity.points }] }
              setKey rep activity.classId
                { classReport with unidades := setKey classReport.unidades u unitReport2 }
      else rep

/-- The `gradeReport` memo: fold all loaded activities over the empty
per-class report. -/
def gradeReport (studentClasses : List EnrolledClass)
    (activities : List ActivityDoc) (uid : String) : List (String × ClassReport) :=
  activities.foldl (gradeStep uid) (emptyGradeReport studentClasses)

/-- Whether a class report holds a detail line with the given id. -/
def detailIn (cr : ClassReport) (i : String) : Bool :=
  cr.unidades.any (fun u => u.2.activities.any (fun d => d.id == i))

/-- Whether a detail line with the given activity id appears anywhere in
a report. -/
def reportHasDetail (rep : List (String × ClassReport)) (i : String) : Bool :=
  rep.any (fun e => detailIn e.2 i)

/-- Whether the current user's submission on the activity is graded:
found, status `Corrigido`, numeric grade. -/
def submissionGraded (uid : String) (a : ActivityDoc) : Bool :=
  match a.submissions.find? (fun s => s.studentId == uid) with
  | some s => s.status == "Corrigido" && s.grade.isSome
  | none => false

/-- Whether the activity carries a (truthy) unidade tag. -/
def hasUnidade (a : ActivityDoc) : Bool :=
  match a.unidade with
  | some u => u != ""
  | none => false

/-- Spec-side contribution condition: the activity's class is enrolled,
the user's submission is graded (`Corrigido` with a numeric grade), and
the activity carries a unidade. -/
def contributesCond (uid : String) (studentClasses : List EnrolledClass)
    (a : ActivityDoc) : Bool :=
  studentClasses.any (fun c => c.id == a.classId)
    && submissionGraded uid a
    && hasUnidade a

/-- Well-formedness of a report as a JS object of objects: outer keys
distinct, and each entry's unidade keys distinct.  Every report the
code builds satisfies this. -/
def repWF (rep : List (String × ClassReport)) : Prop :=
  (rep.map Prod.fst).Nodup ∧ ∀ e ∈ rep, (e.2.unidades.map Prod.fst).Nodup

/-- A concrete graded activity (grade 8, unit 1) of class `k1`. -/
def c10Act : ActivityDoc :=
  { mkAct 1 "k1" 5 with
    unidade := some "1ª Unidade",
    submissions := [SubmissionDoc.mk "u1" "Corrigido" (some 8)] }

/-- The concrete enrolled class of `c10Act`. -/
def c10Cls : EnrolledClass := EnrolledClass.mk "k1" "Turma A"

/-! ## Theorems -/

/-- A `filterMap` whose body is a guarded `some` is a `filter` then `map`. -/
theorem filterMap_guarded {α β : Type} (p : α → Bool) (g : α → β)
    (f : α → Option β) (hf : ∀ a, f a = if p a then some (g a) else none) :
    ∀ l : List α, l.filterMap f = (l.filter p).map g := by
  intro l
  induction l with
  | nil => rfl
  | cons x xs ih =>
    rw [List.filterMap_cons, List.filter_cons, hf x]
    by_cases h : p x <;> simp [h, ih]

/-- The engine is the filter by the spec-side unlock condition followed by
the unlock stamping. -/
theorem checkNewAchievements_eq (s : UserGamificationStats)
    (rules : List AchievementRule) (unlockedMap : List String) (today : String) :
    checkNewAchievements s rules unlockedMap today
      = (rules.filter (specUnlockCond s unlockedMap)).map (stampUnlock today) := by
  apply filterMap_guarded (specUnlockCond s unlockedMap) (stampUnlock today)
  intro a
  unfold specUnlockCond stampUnlock
  by_cases h1 : unlockedMap.contains a.id
  · have h1' : a.id ∈ unlockedMap := by simpa using h1
    simp [h1, h1']
  · have h1' : a.id ∉ unlockedMap := by simpa using h1
    by_cases h2 : a.status = some "Inativa"
    · simp [h1, h1', h2]
    · by_cases h3 : a.criterionCount.getD 0 ≤ 0
      · have h3' : ¬ (0 : Int) < a.criterionCount.getD 0 := by omega
        simp [h1, h1', h2, h3, h3']
      · have h3' : (0 : Int) < a.criterionCount.getD 0 := by omega
        rcases hct : a.criterionType with _ | c
        · simp [h1, h1', h2, h3, h3', hct]
        · cases c <;> simp [h1, h1', h2, h3, h3', hct, statCounter]

/-- C3: the achievement engine returns exactly the rules that are not in
the already-unlocked map, not inactive, have a strictly positive target,
a known criterion type, and a counter meeting the target (each stamped
as unlocked); in particular no returned item's id is in the unlocked
map. -/
theorem checkNewAchievements_correct (s : UserGamificationStats)
    (rules : List AchievementRule) (unlockedMap : List String) (today : String) :
    checkNewAchievements s rules unlockedMap today
      = (rules.filter (specUnlockCond s unlockedMap)).map (stampUnlock today)
    ∧ (checkNewAchievements s rules unlockedMap today).all
        (fun a => !unlockedMap.contains a.id) = true := by
  refine ⟨checkNewAchievements_eq s rules unlockedMap today, ?_⟩
  rw [checkNewAchievements_eq]
  simp only [List.all_eq_true, List.mem_map, List.mem_filter]
  rintro x ⟨b, ⟨_, hcond⟩, rfl⟩
  unfold specUnlockCond at hcond
  simp only [Bool.and_eq_true, Bool.not_eq_true'] at hcond
  simpa [stampUnlock] using hcond.1.1.1

/-- C9 counterexample: the engine reads the system clock to stamp the
unlock date, so two runs with identical stats, rules and unlocked map
produce different outputs when the current date differs. -/
theorem checkNewAchievements_clock_dependent :
    checkNewAchievements c9Stats [c9Rule] [] "01/01/2025"
      ≠ checkNewAchievements c9Stats [c9Rule] [] "02/01/2025" := by decide

/-- C9 amended: the engine is deterministic given its inputs and the
current date — identical stats, rules, unlocked map and date yield
identical outputs, and outputs for different dates agree on every field
except the stamped date. -/
theorem checkNewAchievements_deterministic (s₁ s₂ : UserGamificationStats)
    (r₁ r₂ : List AchievementRule) (u₁ u₂ : List String) (t₁ t₂ : String)
    (hs : s₁ = s₂) (hr : r₁ = r₂) (hu : u₁ = u₂) :
    (t₁ = t₂ → checkNewAchievements s₁ r₁ u₁ t₁ = checkNewAchievements s₂ r₂ u₂ t₂)
    ∧ (checkNewAchievements s₁ r₁ u₁ t₁).map (fun a => { a with date := "" })
        = (checkNewAchievements s₂ r₂ u₂ t₂).map (fun a => { a with date := "" }) := by
  subst hs; subst hr; subst hu
  refine ⟨fun ht => by rw [ht], ?_⟩
  rw [checkNewAchievements_eq, checkNewAchievements_eq, List.map_map, List.map_map]
  simp [Function.comp_def, stampUnlock]

/-- C9 witness: the amended determinism applied at concrete inputs. -/
theorem checkNewAchievements_deterministic_witness :
    ("d1" = "d2" →
        checkNewAchievements c9Stats [c9Rule] [] "d1"
          = checkNewAchievements c9Stats [c9Rule] [] "d2")
    ∧ (checkNewAchievements c9Stats [c9Rule] [] "d1").map (fun a => { a with date := "" })
        = (checkNewAchievements c9Stats [c9Rule] [] "d2").map (fun a => { a with date := "" }) :=
  checkNewAchievements_deterministic c9Stats c9Stats [c9Rule] [c9Rule] [] [] "d1" "d2"
    rfl rfl rfl

/-- C4: a first completion (no attempts recorded) earns `score * 10` xp
and writes `attempts = 1`; any later completion earns 0 xp, increments
`attempts`, and sets `bestScore` to the max of the stored best and the
new score. -/
theorem handleQuizComplete_xp_rule (prevDoc : Option QuizResultDoc) (score : Nat) :
    (prevAttemptsOf prevDoc = 0 →
        (handleQuizComplete prevDoc score).xpEarned = score * 10
        ∧ (handleQuizComplete prevDoc score).newDoc.attempts = some 1)
    ∧ (0 < prevAttemptsOf prevDoc →
        (handleQuizComplete prevDoc score).xpEarned = 0
        ∧ (handleQuizComplete prevDoc score).newDoc.attempts
            = some (prevAttemptsOf prevDoc + 1)
        ∧ (handleQuizComplete prevDoc score).newDoc.bestScore
            = some (max (bestScoreOf prevDoc) score)) := by
  constructor
  · intro h
    simp [handleQuizComplete, h]
  · intro h
    have h0 : ¬ prevAttemptsOf prevDoc = 0 := by omega
    cases prevDoc with
    | none => simp [prevAttemptsOf] at h
    | some d =>
      refine ⟨?_, ?_, ?_⟩ <;> simp [handleQuizComplete, bestScoreOf, h0]

/-- C4 witness: the spec scenario — first attempt score 3 earns 30 xp
with one attempt recorded; a second attempt with score 5 earns 0 xp,
records 2 attempts and best score 5. -/
theorem handleQuizComplete_xp_rule_witness :
    ((handleQuizComplete none 3).xpEarned = 3 * 10
      ∧ (handleQuizComplete none 3).newDoc.attempts = some 1)
    ∧ ((handleQuizComplete (some (handleQuizComplete none 3).newDoc) 5).xpEarned = 0
      ∧ (handleQuizComplete (some (handleQuizComplete none 3).newDoc) 5).newDoc.attempts
          = some (prevAttemptsOf (some (handleQuizComplete none 3).newDoc) + 1)
      ∧ (handleQuizComplete (some (handleQuizComplete none 3).newDoc) 5).newDoc.bestScore
          = some (max (bestScoreOf (some (handleQuizComplete none 3).newDoc)) 5)) :=
  ⟨(handleQuizComplete_xp_rule none 3).1 rfl,
   (handleQuizComplete_xp_rule (some (handleQuizComplete none 3).newDoc) 5).2 (by decide)⟩

/-- C5: joining a class whose membership already contains the user
fails with the specific already-a-member message and leaves the state
unchanged (no counter increment, no duplicate entry); moreover the
transactional check-and-set itself aborts with the domain error
whenever the authoritative `studentIds` contains the user. -/
theorem handleJoinClass_already_member (uid : String) (st : JoinState)
    (h : isMemberCheck st.classDoc uid = true
         ∨ (st.classDoc.studentIds.getD []).contains uid = true) :
    handleJoinClass uid st
      = { success := false, message := "Você já está nesta turma.", state := st }
    ∧ ((st.classDoc.studentIds.getD []).contains uid = true →
        joinClassTx uid st = Except.error "User already in class") := by
  constructor
  · unfold handleJoinClass
    by_cases hm : isMemberCheck st.classDoc uid
    · simp [hm]
    · have hids : (st.classDoc.studentIds.getD []).contains uid = true := by
        rcases h with h1 | h2
        · exact absurd h1 hm
        · exact h2
      have hmem : uid ∈ st.classDoc.studentIds.getD [] := by simpa using hids
      simp [hm, joinClassTx, hmem]
  · intro hid
    have hmem : uid ∈ st.classDoc.studentIds.getD [] := by simpa using hid
    unfold joinClassTx
    simp [hmem]

/-- C5 witness: joining `ABC123` while already a member of the concrete
class `c5State`. -/
theorem handleJoinClass_already_member_witness :
    handleJoinClass "u1" c5State
      = { success := false, message := "Você já está nesta turma.", state := c5State }
    ∧ ((c5State.classDoc.studentIds.getD []).contains "u1" = true →
        joinClassTx "u1" c5State = Except.error "User already in class") :=
  handleJoinClass_already_member "u1" c5State (Or.inl (by decide))

/-- C8: with `forceRefresh = false` the executor serves a non-empty
cache snapshot directly and falls back to the network exactly when the
cache read returns zero documents or throws; with `forceRefresh = true`
it goes directly to the network.  Cache errors never surface (the
result in those cases is the network outcome, whose error — if any —
propagates). -/
theorem runQueryCacheFirst_correct (α : Type) (fr : Bool)
    (c : Except Unit (List α)) (n : Except String (List α)) :
    (fr = true → runQueryCacheFirst fr c n = n)
    ∧ (fr = false → cacheMiss c = true → runQueryCacheFirst fr c n = n)
    ∧ (fr = false → cacheMiss c = false →
        ∃ l, c = Except.ok l ∧ l.isEmpty = false
          ∧ runQueryCacheFirst fr c n = Except.ok l) := by
  refine ⟨?_, ?_, ?_⟩
  · intro h; subst h; rfl
  · intro h hm; subst h
    cases c with
    | error e => rfl
    | ok l =>
      simp only [cacheMiss] at hm
      simp [runQueryCacheFirst, hm]
  · intro h hm; subst h
    cases c with
    | error e => simp [cacheMiss] at hm
    | ok l =>
      simp only [cacheMiss] at hm
      exact ⟨l, rfl, hm, by simp [runQueryCacheFirst, hm]⟩

/-- C8 witness: a non-empty cached snapshot is served without touching
the network, and a forced refresh goes straight to the network. -/
theorem runQueryCacheFirst_correct_witness :
    runQueryCacheFirst true (Except.ok ([1] : List Nat)) (Except.ok [2]) = Except.ok [2]
    ∧ runQueryCacheFirst false (Except.error () : Except Unit (List Nat)) (Except.ok [2])
        = Except.ok [2]
    ∧ ∃ l, (Except.ok [1] : Except Unit (List Nat)) = Except.ok l ∧ l.isEmpty = false
        ∧ runQueryCacheFirst false (Except.ok ([1] : List Nat)) (Except.ok [2]) = Except.ok l :=
  ⟨(runQueryCacheFirst_correct Nat true (Except.ok [1]) (Except.ok [2])).1 rfl,
   (runQueryCacheFirst_correct Nat false (Except.error ()) (Except.ok [2])).2.1 rfl rfl,
   (runQueryCacheFirst_correct Nat false (Except.ok [1]) (Except.ok [2])).2.2 rfl (by decide)⟩

/-- C6: the derived notification view is a permutation of the two
sources' concatenation with each read flag recomputed from the receipts,
it is sorted descending by timestamp, and the unread count is the number
of unread items of the recomputed sources. -/
theorem notifications_merge_correct (p b : List Notif) (r : List String) :
    (mergeNotifications p b r).Perm ((p ++ b).map (applyReceipts r))
    ∧ (mergeNotifications p b r).Pairwise (fun x y => y.timestamp ≤ x.timestamp)
    ∧ unreadNotificationCount p b r
        = (p.map (applyReceipts r)).countP (fun n => !n.read)
          + (b.map (applyReceipts r)).countP (fun n => !n.read) := by
  have hperm := List.mergeSort_perm (((p ++ b).map (applyReceipts r)))
    (fun a b => decide (b.timestamp ≤ a.timestamp))
  refine ⟨hperm, ?_, ?_⟩
  · have hs := @List.sorted_mergeSort Notif
      (fun a b => decide (b.timestamp ≤ a.timestamp))
      (fun a b c hab hbc => by
        simp only [decide_eq_true_eq] at *; omega)
      (fun a b => by
        simp only [Bool.or_eq_true, decide_eq_true_eq]; omega)
      ((p ++ b).map (applyReceipts r))
    exact hs.imp (fun h => by simpa using h)
  · unfold unreadNotificationCount mergeNotifications
    rw [← List.countP_eq_length_filter]
    rw [hperm.countP_eq]
    rw [List.map_append, List.countP_append]

/-- C7 counterexample: the merged view performs no dedup by id — a
private and a broadcast notification sharing the id `n1` both appear. -/
theorem mergeNotifications_duplicate_ids :
    (mergeNotifications [dupPrivateN] [dupBroadcastN] []).map (fun n => n.id)
      = ["n1", "n1"]
    ∧ dupPrivateN.id = dupBroadcastN.id := by
  constructor
  · simp [mergeNotifications, List.mergeSort, List.merge, dupPrivateN, dupBroadcastN,
      applyReceipts]
  · rfl

/-- C7 amended: the merged view is the plain concatenation of the two
sources (flags recomputed, re-sorted) with no dedup step, so it always
has exactly `|A| + |B|` items — in particular exactly `|A| + |B|` when
the two id sets are disjoint. -/
theorem mergeNotifications_length (p b : List Notif) (r : List String) :
    (mergeNotifications p b r).length = p.length + b.length := by
  have h := List.mergeSort_perm (((p ++ b).map (applyReceipts r)))
    (fun a b => decide (b.timestamp ≤ a.timestamp))
  have hl := h.length_eq
  simp only [List.length_map, List.length_append] at hl
  exact hl

/-- C1 (code bug): `loadMoreActivities` dedups the fetched page against
the page's own ids, so it never appends anything — the feed stays at the
first page while the cursor and `hasMore` advance.  On the 11-document
feed `c1Feed` with page size 10, the second page's document `a11` never
enters the local list. -/
theorem loadMoreActivities_appends_nothing :
    (∀ (feed : List ActivityDoc) (classIds : List String) (st : FeedState),
        (loadMoreActivities feed classIds st).activities = st.activities)
    ∧ ((loadMoreActivities c1Feed ["c1"] (initialActivitiesLoad c1Feed ["c1"])).activities.length
          = 10
       ∧ c1Feed.length = 11
       ∧ (loadMoreActivities c1Feed ["c1"] (initialActivitiesLoad c1Feed ["c1"])).lastActivityDoc
          = some "a11"
       ∧ (loadMoreActivities c1Feed ["c1"] (initialActivitiesLoad c1Feed ["c1"])).activities.any
          (fun a => a.id == "a11") = false
       ∧ (loadMoreActivities c1Feed ["c1"] (initialActivitiesLoad c1Feed ["c1"])).hasMoreActivities
          = false) := by
  have hgen : ∀ (feed : List ActivityDoc) (classIds : List String) (st : FeedState),
      (loadMoreActivities feed classIds st).activities = st.activities := by
    intro feed classIds st
    unfold loadMoreActivities
    by_cases hc : st.lastActivityDoc.isNone || st.isLoadingMoreActivities || classIds.isEmpty
    · simp [hc]
    · simp only [hc, if_false, Bool.false_eq_true]
      simp
      exact fun a ha => ⟨a, ha, rfl⟩
  refine ⟨hgen, ?_, by decide, ?_, ?_, ?_⟩
  · rw [hgen]; decide
  · decide
  · rw [hgen]; decide
  · decide

/-- C2 counterexample: with 11 class ids, the paginated activities fetch
silently excludes the 11th class — a visible activity of class `c11` is
not returned even though `c11` is in the filter set — while the chunked
class-module fetch does cover it. -/
theorem fetchStudentActivities_truncates :
    (fetchStudentActivities [c2Act] c2Ids none).activities = []
    ∧ c2Ids.contains c2Act.classId = true
    ∧ c2Act.isVisible = true
    ∧ (fetchClassModules [{ id := "m1", status := "Ativo", classIds := ["c11"] }] c2Ids).length
        = 1 := by
  refine ⟨by decide, by decide, by decide, ?_⟩
  simp [fetchClassModules, chunksOf10, moduleChunkQuery, dedupById, c2Ids]

/-- The chunks concatenate back to the original list. -/
theorem chunksOf10_flatten {α : Type} (l : List α) : (chunksOf10 l).flatten = l := by
  induction l using chunksOf10.induct with
  | case1 => simp [chunksOf10]
  | case2 x xs ih =>
    rw [chunksOf10]
    simp only [List.flatten_cons, ih]
    simp

/-- An element is in the list iff it is in one of its chunks. -/
theorem mem_chunksOf10 {α : Type} (l : List α) (c : α) :
    c ∈ l ↔ ∃ ch ∈ chunksOf10 l, c ∈ ch := by
  rw [← chunksOf10_flatten l, List.mem_flatten]
  rw [chunksOf10_flatten l]

/-- Every chunk respects the 10-value filter cap. -/
theorem chunksOf10_length_le {α : Type} (l : List α) :
    ∀ ch ∈ chunksOf10 l, ch.length ≤ 10 := by
  induction l using chunksOf10.induct with
  | case1 => simp [chunksOf10]
  | case2 x xs ih =>
    rw [chunksOf10]
    intro ch hch
    rcases List.mem_cons.mp hch with h | h
    · subst h
      simp only [List.length_cons, List.length_take]
      omega
    · exact ih ch h

/-- First-occurrence dedup preserves which ids occur. -/
theorem dedupById_any_id (l : List ModuleDoc) (i : String) :
    (dedupById l).any (fun m => m.id == i) = l.any (fun m => m.id == i) := by
  suffices h : ∀ acc : List ModuleDoc,
      (l.foldl (fun acc m => if acc.any (fun x => x.id == m.id) then acc else acc ++ [m]) acc).any
          (fun m => m.id == i)
        = (acc.any (fun m => m.id == i) || l.any (fun m => m.id == i)) by
    simpa [dedupById] using h []
  induction l with
  | nil => simp
  | cons x xs ih =>
    intro acc
    rw [List.foldl_cons, ih, List.any_cons]
    by_cases hx : acc.any (fun y => y.id == x.id)
    · simp only [hx, if_true]
      by_cases hxi : x.id == i
      · have : acc.any (fun m => m.id == i) = true := by
          have hxi' : x.id = i := by simpa using hxi
          simpa [hxi'] using hx
        simp [this, hxi]
      · simp [hxi]
    · simp only [hx, if_false]
      simp [List.any_append, Bool.or_assoc]

/-- C2 amended: the class-module fetch issues one query per ≤10-id chunk
and unions all chunk results, so a module id is fetched exactly when
some of its classes is anywhere in the full filter set; the paginated
activities fetch instead truncates the filter to the first 10 class
ids, so its result is oblivious to every id past the 10th. -/
theorem classModules_chunked_correct (mods : List ModuleDoc) (classIds : List String)
    (feed : List ActivityDoc) (sa : Option String) (i : String) :
    ((fetchClassModules mods classIds).any (fun m => m.id == i)
        = mods.any (fun m => m.id == i && m.status == "Ativo"
            && m.classIds.any (fun c => classIds.contains c)))
    ∧ ((chunksOf10 classIds).all (fun ch => decide (ch.length ≤ 10)) = true)
    ∧ fetchStudentActivities feed classIds sa
        = fetchStudentActivities feed (classIds.take 10) sa := by
  refine ⟨?_, ?_, ?_⟩
  · rw [fetchClassModules, dedupById_any_id]
    rw [Bool.eq_iff_iff]
    simp only [List.any_eq_true, List.mem_flatten, List.mem_map, moduleChunkQuery,
      List.mem_filter, Bool.and_eq_true, beq_iff_eq]
    constructor
    · rintro ⟨m, ⟨l, ⟨ch, hch, hl⟩, hml⟩, hid⟩
      subst hl
      rw [List.mem_filter] at hml
      obtain ⟨hm, hcond⟩ := hml
      rw [Bool.and_eq_true] at hcond
      obtain ⟨hstatus, hany⟩ := hcond
      rw [List.any_eq_true] at hany
      obtain ⟨c, hc, hcc⟩ := hany
      have hcch : c ∈ ch := by simpa using hcc
      have hcids : c ∈ classIds := (mem_chunksOf10 classIds c).mpr ⟨ch, hch, hcch⟩
      exact ⟨m, hm, ⟨hid, by simpa using hstatus⟩, c, hc, by simpa using hcids⟩
    · rintro ⟨m, hm, ⟨hid, hstatus⟩, c, hc, hcont⟩
      have hcids : c ∈ classIds := by simpa using hcont
      obtain ⟨ch, hch, hcch⟩ := (mem_chunksOf10 classIds c).mp hcids
      refine ⟨m, ⟨_, ⟨ch, hch, rfl⟩, ?_⟩, hid⟩
      rw [List.mem_filter]
      refine ⟨hm, ?_⟩
      rw [Bool.and_eq_true]
      refine ⟨by simpa using hstatus, ?_⟩
      rw [List.any_eq_true]
      exact ⟨c, hc, by simpa using hcch⟩
  · rw [List.all_eq_true]
    intro ch hch
    simpa using chunksOf10_length_le classIds ch hch
  · unfold fetchStudentActivities
    cases classIds with
    | nil => rfl
    | cons x xs =>
      simp [List.take_take]

theorem getKey_mem {β : Type} (m : List (String × β)) (k : String) (v : β)
    (h : getKey m k = some v) : (k, v) ∈ m := by
  unfold getKey at h
  cases hf : m.find? (fun p => p.1 == k) with
  | none => rw [hf] at h; simp at h
  | some p =>
    rw [hf] at h
    simp at h
    have hpm := List.mem_of_find?_eq_some hf
    have hpk := List.find?_some hf
    have hk : p.1 = k := by simpa using hpk
    have : p = (k, v) := by
      cases p
      simp_all
    rwa [this] at hpm

theorem getKey_any {β : Type} (m : List (String × β)) (k : String) (v : β)
    (h : getKey m k = some v) : m.any (fun p => p.1 == k) = true := by
  have hm := getKey_mem m k v h
  rw [List.any_eq_true]
  exact ⟨(k, v), hm, by simp⟩

theorem getKey_none_any {β : Type} (m : List (String × β)) (k : String)
    (h : getKey m k = none) : m.any (fun p => p.1 == k) = false := by
  unfold getKey at h
  cases hf : m.find? (fun p => p.1 == k) with
  | some p => rw [hf] at h; simp at h
  | none =>
    have := List.find?_eq_none.mp hf
    rw [List.any_eq_false]
    intro p hp
    simpa using this p hp

theorem mem_setKey_iff {β : Type} (m : List (String × β)) (k : String) (v : β)
    (e : String × β) :
    e ∈ setKey m k v ↔ ((e ∈ m ∧ ¬ e.1 = k) ∨ e = (k, v)) := by
  unfold setKey
  by_cases h : (m.any fun p => p.1 == k) = true
  · rw [if_pos h]
    rw [List.mem_map]
    constructor
    · rintro ⟨p, hp, hpe⟩
      by_cases hk : (p.1 == k) = true
      · right; rw [if_pos hk] at hpe; exact hpe.symm
      · left
        rw [if_neg hk] at hpe
        subst hpe
        exact ⟨hp, by simpa using hk⟩
    · rintro (⟨he, hek⟩ | he)
      · exact ⟨e, he, by rw [if_neg (by simpa using hek : ¬ (e.1 == k) = true)]⟩
      · rw [List.any_eq_true] at h
        obtain ⟨p, hp, hpk⟩ := h
        exact ⟨p, hp, by rw [if_pos hpk, he]⟩
  · rw [if_neg h]
    rw [List.mem_append, List.mem_singleton]
    constructor
    · rintro (he | he)
      · left
        refine ⟨he, ?_⟩
        simp only [Bool.not_eq_true] at h
        rw [List.any_eq_false] at h
        simpa using h e he
      · right; exact he
    · rintro (⟨he, _⟩ | he)
      · left; exact he
      · right; exact he

theorem setKey_keys_of_any {β : Type} (m : List (String × β)) (k : String) (v : β)
    (h : m.any (fun p => p.1 == k) = true) :
    (setKey m k v).map Prod.fst = m.map Prod.fst := by
  unfold setKey
  rw [if_pos h, List.map_map]
  apply List.map_congr_left
  intro p hp
  by_cases hk : p.1 == k
  · simp only [hk, if_true, Function.comp_apply]
    exact (by simpa using hk : p.1 = k).symm
  · have hk2 : ¬ p.1 = k := by simpa using hk
    simp [hk2]

theorem setKey_keys_nodup {β : Type} (m : List (String × β)) (k : String) (v : β)
    (h : (m.map Prod.fst).Nodup) : ((setKey m k v).map Prod.fst).Nodup := by
  by_cases ha : m.any (fun p => p.1 == k)
  · rw [setKey_keys_of_any m k v ha]; exact h
  · unfold setKey
    rw [if_neg ha, List.map_append]
    simp only [List.map_cons, List.map_nil]
    rw [List.nodup_append]
    refine ⟨h, List.nodup_singleton k, ?_⟩
    intro x hx
    simp only [List.mem_singleton]
    simp only [Bool.not_eq_true] at ha
    rw [List.any_eq_false] at ha
    rw [List.mem_map] at hx
    obtain ⟨p, hp, rfl⟩ := hx
    intro hxk
    have hpk := ha p hp
    simp [hxk] at hpk

theorem nodup_key_unique {β : Type} (m : List (String × β)) (k : String) (v w : β)
    (h : (m.map Prod.fst).Nodup) (hv : (k, v) ∈ m) (hw : (k, w) ∈ m) : v = w := by
  induction m with
  | nil => simp at hv
  | cons p ps ih =>
    rw [List.map_cons, List.nodup_cons] at h
    rcases List.mem_cons.mp hv with hv1 | hv1 <;> rcases List.mem_cons.mp hw with hw1 | hw1
    · exact congrArg Prod.snd (hv1.trans hw1.symm)
    · exfalso
      apply h.1
      rw [List.mem_map]
      exact ⟨(k, w), hw1, by rw [← hv1]⟩
    · exfalso
      apply h.1
      rw [List.mem_map]
      exact ⟨(k, v), hv1, by rw [← hw1]⟩
    · exact ih h.2 hv1 hw1

theorem any_map_general {α β : Type} (l : List α) (f : α → β) (p : β → Bool) :
    (l.map f).any p = l.any (fun a => p (f a)) := by
  induction l with
  | nil => rfl
  | cons x xs ih => simp only [List.map_cons, List.any_cons, ih]

theorem any_setKey_key {β : Type} (m : List (String × β)) (k j : String) (v : β) :
    (setKey m k v).any (fun p => p.1 == j) = (m.any (fun p => p.1 == j) || (k == j)) := by
  by_cases ha : m.any (fun p => p.1 == k)
  · have hkeys := setKey_keys_of_any m k v ha
    have h2 : ∀ l : List (String × β), l.any (fun p => p.1 == j)
        = (l.map Prod.fst).any (fun x => x == j) := fun l =>
      (any_map_general l Prod.fst (fun x => x == j)).symm
    rw [h2, hkeys, ← h2]
    by_cases hj : (k == j)
    · have hkj : k = j := by simpa using hj
      subst hkj
      simp [ha]
    · simp [hj]
  · unfold setKey
    rw [if_neg ha, List.any_append]
    simp
theorem any_congr_general {α : Type} (l : List α) (p q : α → Bool)
    (h : ∀ x ∈ l, p x = q x) : l.any p = l.any q := by
  induction l with
  | nil => rfl
  | cons x xs ih =>
    simp only [List.any_cons]
    rw [h x (List.mem_cons_self x xs), ih (fun y hy => h y (List.mem_cons_of_mem x hy))]

theorem gradeStep_cases (uid : String) (rep : List (String × ClassReport))
    (a : ActivityDoc) :
    (gradeStep uid rep a = rep
      ∧ (rep.any (fun p => p.1 == a.classId) && submissionGraded uid a
          && hasUnidade a) = false)
    ∨ ∃ cr s g u,
        getKey rep a.classId = some cr
        ∧ a.submissions.find? (fun x => x.studentId == uid) = some s
        ∧ (s.status == "Corrigido") = true
        ∧ s.grade = some g
        ∧ a.unidade = some u
        ∧ (u == "") = false
        ∧ (rep.any (fun p => p.1 == a.classId) && submissionGraded uid a
            && hasUnidade a) = true
        ∧ gradeStep uid rep a
            = setKey rep a.classId
                (ClassReport.mk cr.className
                  (setKey cr.unidades u
                    (UnitReport.mk
                      (((getKey cr.unidades u).getD (UnitReport.mk 0 [])).totalPoints + g)
                      (((getKey cr.unidades u).getD (UnitReport.mk 0 [])).activities ++
                        [GradeDetail.mk a.id a.title g a.points])))) := by
  cases h1 : getKey rep a.classId with
  | none =>
    left
    refine ⟨by simp only [gradeStep, h1], ?_⟩
    rw [getKey_none_any _ _ h1]
    rfl
  | some cr =>
    cases h2 : a.submissions.find? (fun x => x.studentId == uid) with
    | none =>
      left
      refine ⟨by simp only [gradeStep, h1, h2], ?_⟩
      unfold submissionGraded
      rw [h2]
      simp
    | some s =>
      by_cases h3 : (s.status == "Corrigido") = true
      · cases h4 : s.grade with
        | none =>
          left
          refine ⟨by simp only [gradeStep, h1, h2, h3, if_true, h4], ?_⟩
          unfold submissionGraded
          rw [h2]
          simp [h4]
        | some g =>
          cases h5 : a.unidade with
          | none =>
            left
            refine ⟨by simp only [gradeStep, h1, h2, h3, if_true, h4, h5], ?_⟩
            unfold hasUnidade
            rw [h5]
            simp
          | some u =>
            by_cases h6 : (u == "") = true
            · left
              refine ⟨by simp only [gradeStep, h1, h2, h3, if_true, h4, h5, h6], ?_⟩
              unfold hasUnidade
              rw [h5]
              simp only [Bool.and_eq_false_iff]
              right
              simpa using h6
            · right
              refine ⟨cr, s, g, u, rfl, rfl, h3, h4, rfl,
                by simp only [Bool.not_eq_true] at h6; exact h6, ?_, ?_⟩
              · have hga : (rep.any fun p => p.1 == a.classId) = true := by
                  rw [List.any_eq_true]
                  refine ⟨(a.classId, cr), ?_, by simp⟩
                  exact getKey_mem rep a.classId cr h1
                have h6' : (u == "") = false := by simpa using h6
                unfold submissionGraded hasUnidade
                simp [h2, h3, h4, h5, hga, h6']
                exact ne_of_beq_false h6'
              · simp only [gradeStep, h1, h2, h3, if_true, h4, h5]
                rw [if_neg h6]
      · left
        have h3' : (s.status == "Corrigido") = false := by simpa using h3
        refine ⟨?_, ?_⟩
        · simp only [gradeStep, h1, h2]
          rw [if_neg h3]
        · unfold submissionGraded
          rw [h2]
          simp only [Bool.and_eq_false_iff]
          left
          right
          simp [h3']
theorem any_setKey_snd {β : Type} (m : List (String × β)) (k : String) (v' : β)
    (q : β → Bool) :
    (setKey m k v').any (fun p => q p.2)
      = (m.any (fun p => !(p.1 == k) && q p.2) || q v') := by
  rw [Bool.eq_iff_iff]
  simp only [List.any_eq_true, Bool.or_eq_true, Bool.and_eq_true, Bool.not_eq_true']
  constructor
  · rintro ⟨e, he, hq⟩
    rcases (mem_setKey_iff m k v' e).mp he with ⟨hm, hk⟩ | rfl
    · left; exact ⟨e, hm, by simpa using hk, hq⟩
    · right; exact hq
  · rintro (⟨e, hm, hk, hq⟩ | hq)
    · refine ⟨e, (mem_setKey_iff m k v' e).mpr (Or.inl ⟨hm, ?_⟩), hq⟩
      simpa using hk
    · exact ⟨(k, v'), (mem_setKey_iff m k v' _).mpr (Or.inr rfl), hq⟩

theorem any_split_key {β : Type} (m : List (String × β)) (k : String) (v : β)
    (q : β → Bool) (hnd : (m.map Prod.fst).Nodup) (hv : getKey m k = some v) :
    m.any (fun p => q p.2) = (m.any (fun p => !(p.1 == k) && q p.2) || q v) := by
  rw [Bool.eq_iff_iff]
  simp only [List.any_eq_true, Bool.or_eq_true, Bool.and_eq_true, Bool.not_eq_true']
  constructor
  · rintro ⟨e, he, hq⟩
    by_cases hk : e.1 = k
    · right
      have he2 : (k, e.2) ∈ m := by
        cases e
        simp_all
      rw [nodup_key_unique m k e.2 v hnd he2 (getKey_mem m k v hv)] at hq
      exact hq
    · left; exact ⟨e, he, by simpa using hk, hq⟩
  · rintro (⟨e, hm, _, hq⟩ | hq)
    · exact ⟨e, hm, hq⟩
    · exact ⟨(k, v), getKey_mem m k v hv, hq⟩

theorem any_drop_key {β : Type} (m : List (String × β)) (k : String) (q : β → Bool)
    (h : m.any (fun p => p.1 == k) = false) :
    m.any (fun p => !(p.1 == k) && q p.2) = m.any (fun p => q p.2) := by
  apply any_congr_general
  intro e he
  rw [List.any_eq_false] at h
  have hek : (e.1 == k) = false := by simpa using h e he
  rw [hek]
  simp

theorem gradeStep_keys (uid : String) (rep : List (String × ClassReport))
    (a : ActivityDoc) (j : String) :
    (gradeStep uid rep a).any (fun p => p.1 == j)
      = rep.any (fun p => p.1 == j) := by
  rcases gradeStep_cases uid rep a with ⟨heq, _⟩ | ⟨cr, s, g, u, h1, _, _, _, _, _, _, heq⟩
  · rw [heq]
  · rw [heq, any_setKey_key]
    by_cases hj : (a.classId == j) = true
    · have hj' : a.classId = j := by simpa using hj
      have := getKey_any rep a.classId cr h1
      rw [hj'] at this
      simp [this]
    · have hj' : (a.classId == j) = false := by simpa using hj
      simp [hj']

theorem gradeStep_wf (uid : String) (rep : List (String × ClassReport))
    (a : ActivityDoc) (hwf : repWF rep) : repWF (gradeStep uid rep a) := by
  rcases gradeStep_cases uid rep a with ⟨heq, _⟩ | ⟨cr, s, g, u, h1, _, _, _, _, _, _, heq⟩
  · rw [heq]; exact hwf
  · rw [heq]
    constructor
    · exact setKey_keys_nodup _ _ _ hwf.1
    · intro e he
      rcases (mem_setKey_iff _ _ _ e).mp he with ⟨hm, _⟩ | rfl
      · exact hwf.2 e hm
      · exact setKey_keys_nodup _ _ _ (hwf.2 (a.classId, cr) (getKey_mem rep a.classId cr h1))

theorem gradeStep_totals (uid : String) (rep : List (String × ClassReport))
    (a : ActivityDoc)
    (hrep : ∀ e ∈ rep, ∀ un ∈ e.2.unidades,
        un.2.totalPoints = (un.2.activities.map (fun d => d.grade)).sum) :
    ∀ e ∈ gradeStep uid rep a, ∀ un ∈ e.2.unidades,
        un.2.totalPoints = (un.2.activities.map (fun d => d.grade)).sum := by
  rcases gradeStep_cases uid rep a with ⟨heq, _⟩ | ⟨cr, s, g, u, h1, _, _, _, _, _, _, heq⟩
  · rw [heq]; exact hrep
  · rw [heq]
    intro e he
    rcases (mem_setKey_iff _ _ _ e).mp he with ⟨hm, _⟩ | rfl
    · exact hrep e hm
    · intro un hun
      have hcr := hrep (a.classId, cr) (getKey_mem rep a.classId cr h1)
      rcases (mem_setKey_iff _ _ _ un).mp hun with ⟨hm2, _⟩ | rfl
      · exact hcr un hm2
      · simp only [List.map_append, List.sum_append]
        cases hku : getKey cr.unidades u with
        | none => simp
        | some ur =>
          have := hcr (u, ur) (getKey_mem cr.unidades u ur hku)
          simp only [hku, Option.getD_some]
          simpa using this
theorem gradeStep_detail (uid : String) (rep : List (String × ClassReport))
    (a : ActivityDoc) (i : String) (hwf : repWF rep) :
    reportHasDetail (gradeStep uid rep a) i
      = (reportHasDetail rep i
         || (a.id == i && (rep.any (fun p => p.1 == a.classId)
             && submissionGraded uid a && hasUnidade a))) := by
  rcases gradeStep_cases uid rep a with ⟨heq, hcond⟩ |
    ⟨cr, s, g, u, h1, h2, h3, h4, h5, h6, hcond, heq⟩
  · rw [heq, hcond]
    simp
  · rw [heq, hcond]
    unfold reportHasDetail
    rw [any_setKey_snd rep a.classId _ (fun c => detailIn c i)]
    rw [any_split_key rep a.classId cr (fun c => detailIn c i) hwf.1 h1]
    have hdet : detailIn
        (ClassReport.mk cr.className
          (setKey cr.unidades u
            (UnitReport.mk
              (((getKey cr.unidades u).getD (UnitReport.mk 0 [])).totalPoints + g)
              (((getKey cr.unidades u).getD (UnitReport.mk 0 [])).activities ++
                [GradeDetail.mk a.id a.title g a.points])))) i
        = (detailIn cr i || (a.id == i)) := by
      unfold detailIn
      rw [any_setKey_snd cr.unidades u _ (fun x => x.activities.any (fun d => d.id == i))]
      cases hku : getKey cr.unidades u with
      | none =>
        conv_rhs => rw [← any_drop_key cr.unidades u
          (fun x => x.activities.any (fun d => d.id == i)) (getKey_none_any _ _ hku)]
        simp
      | some ur =>
        conv_rhs => rw [any_split_key cr.unidades u ur
          (fun x => x.activities.any (fun d => d.id == i))
          (hwf.2 (a.classId, cr) (getKey_mem rep a.classId cr h1)) hku]
        simp only [Option.getD_some, List.any_append, List.any_cons, List.any_nil,
          Bool.or_false]
        rw [Bool.or_assoc]
    rw [hdet]
    rw [Bool.eq_iff_iff]
    simp only [Bool.or_eq_true, Bool.and_eq_true]
    tauto
theorem emptyGradeReport_unidades (cls : List EnrolledClass) :
    ∀ e ∈ emptyGradeReport cls, e.2.unidades = [] := by
  unfold emptyGradeReport
  suffices h : ∀ (l : List EnrolledClass) (acc : List (String × ClassReport)),
      (∀ e ∈ acc, e.2.unidades = []) →
      ∀ e ∈ l.foldl (fun rep c => setKey rep c.id (ClassReport.mk c.name [])) acc,
        e.2.unidades = [] by
    exact h cls [] (by simp)
  intro l
  induction l with
  | nil => intro acc hacc; simpa using hacc
  | cons c cs ih =>
    intro acc hacc
    rw [List.foldl_cons]
    apply ih
    intro e he
    rcases (mem_setKey_iff acc c.id _ e).mp he with ⟨hm, _⟩ | rfl
    · exact hacc e hm
    · rfl

theorem emptyGradeReport_keys (cls : List EnrolledClass) (j : String) :
    (emptyGradeReport cls).any (fun p => p.1 == j) = cls.any (fun c => c.id == j) := by
  unfold emptyGradeReport
  suffices h : ∀ (l : List EnrolledClass) (acc : List (String × ClassReport)),
      (l.foldl (fun rep c => setKey rep c.id (ClassReport.mk c.name [])) acc).any
          (fun p => p.1 == j)
        = (acc.any (fun p => p.1 == j) || l.any (fun c => c.id == j)) by
    simpa using h cls []
  intro l
  induction l with
  | nil => intro acc; simp
  | cons c cs ih =>
    intro acc
    rw [List.foldl_cons, ih, any_setKey_key, List.any_cons, Bool.or_assoc]

theorem emptyGradeReport_wf (cls : List EnrolledClass) : repWF (emptyGradeReport cls) := by
  constructor
  · unfold emptyGradeReport
    suffices h : ∀ (l : List EnrolledClass) (acc : List (String × ClassReport)),
        (acc.map Prod.fst).Nodup →
        ((l.foldl (fun rep c => setKey rep c.id (ClassReport.mk c.name [])) acc).map
          Prod.fst).Nodup by
      exact h cls [] (by simp)
    intro l
    induction l with
    | nil => intro acc hacc; simpa using hacc
    | cons c cs ih =>
      intro acc hacc
      rw [List.foldl_cons]
      exact ih _ (setKey_keys_nodup _ _ _ hacc)
  · intro e he
    rw [emptyGradeReport_unidades cls e he]
    exact List.nodup_nil

theorem emptyGradeReport_no_detail (cls : List EnrolledClass) (i : String) :
    reportHasDetail (emptyGradeReport cls) i = false := by
  unfold reportHasDetail
  rw [List.any_eq_false]
  intro e he
  unfold detailIn
  rw [emptyGradeReport_unidades cls e he]
  simp

theorem foldl_gradeStep_totals (uid : String) (acts : List ActivityDoc) :
    ∀ rep : List (String × ClassReport),
      (∀ e ∈ rep, ∀ un ∈ e.2.unidades,
          un.2.totalPoints = (un.2.activities.map (fun d => d.grade)).sum) →
      ∀ e ∈ acts.foldl (gradeStep uid) rep, ∀ un ∈ e.2.unidades,
          un.2.totalPoints = (un.2.activities.map (fun d => d.grade)).sum := by
  induction acts with
  | nil => intro rep h; simpa using h
  | cons a as ih =>
    intro rep h
    rw [List.foldl_cons]
    exact ih _ (gradeStep_totals uid rep a h)

theorem foldl_gradeStep_keys (uid : String) (acts : List ActivityDoc) :
    ∀ (rep : List (String × ClassReport)) (j : String),
      (acts.foldl (gradeStep uid) rep).any (fun p => p.1 == j)
        = rep.any (fun p => p.1 == j) := by
  induction acts with
  | nil => intro rep j; rfl
  | cons a as ih =>
    intro rep j
    rw [List.foldl_cons, ih, gradeStep_keys]

theorem foldl_gradeStep_detail (uid : String) (i : String) (acts : List ActivityDoc) :
    ∀ rep : List (String × ClassReport), repWF rep →
      reportHasDetail (acts.foldl (gradeStep uid) rep) i
        = (reportHasDetail rep i
           || acts.any (fun a => a.id == i && (rep.any (fun p => p.1 == a.classId)
               && submissionGraded uid a && hasUnidade a))) := by
  induction acts with
  | nil => intro rep _; simp
  | cons a as ih =>
    intro rep hwf
    rw [List.foldl_cons]
    rw [ih _ (gradeStep_wf uid rep a hwf)]
    rw [gradeStep_detail uid rep a i hwf]
    rw [List.any_cons, Bool.or_assoc]
    have hcongr : as.any (fun a2 => a2.id == i
          && ((gradeStep uid rep a).any (fun p => p.1 == a2.classId)
              && submissionGraded uid a2 && hasUnidade a2))
        = as.any (fun a2 => a2.id == i
          && (rep.any (fun p => p.1 == a2.classId)
              && submissionGraded uid a2 && hasUnidade a2)) := by
      apply any_congr_general
      intro a2 _
      rw [gradeStep_keys]
    rw [hcongr]

/-- C10: in the derived grade report, every per-class per-unidade
entry's `totalPoints` is the sum of the grades of its listed activity
details, and a detail line with a given activity id appears iff some
loaded activity has that id, belongs to an enrolled class, carries a
unidade, and the current user's submission on it has status `Corrigido`
with a numeric grade. -/
theorem gradeReport_correct (cls : List EnrolledClass) (acts : List ActivityDoc)
    (uid : String) :
    (∀ e ∈ gradeReport cls acts uid, ∀ un ∈ e.2.unidades,
        un.2.totalPoints = (un.2.activities.map (fun d => d.grade)).sum)
    ∧ ∀ i, reportHasDetail (gradeReport cls acts uid) i
        = acts.any (fun a => a.id == i && contributesCond uid cls a) := by
  constructor
  · apply foldl_gradeStep_totals
    intro e he un hun
    rw [emptyGradeReport_unidades cls e he] at hun
    simp at hun
  · intro i
    unfold gradeReport
    rw [foldl_gradeStep_detail uid i acts _ (emptyGradeReport_wf cls)]
    rw [emptyGradeReport_no_detail]
    rw [Bool.false_or]
    apply any_congr_general
    intro a _
    unfold contributesCond
    rw [emptyGradeReport_keys]


/-- C10 witness: the characterization applied at a concrete report —
the entry for class `k1`, unit `1ª Unidade` holds total 8 with the one
detail line of grade 8, and the detail-membership equation holds at the
contributing activity's id. -/
theorem gradeReport_correct_witness :
    (("k1", ClassReport.mk "Turma A"
        [("1ª Unidade", UnitReport.mk 8 [GradeDetail.mk "a1" "t1" 8 10])])
          ∈ gradeReport [c10Cls] [c10Act] "u1"
      ∧ (UnitReport.mk 8 [GradeDetail.mk "a1" "t1" 8 10]).totalPoints
          = ((UnitReport.mk 8 [GradeDetail.mk "a1" "t1" 8 10]).activities.map
              (fun d => d.grade)).sum)
    ∧ reportHasDetail (gradeReport [c10Cls] [c10Act] "u1") "a1"
        = [c10Act].any (fun a => a.id == "a1" && contributesCond "u1" [c10Cls] a) :=
  ⟨⟨by decide,
    (gradeReport_correct [c10Cls] [c10Act] "u1").1
      ("k1", ClassReport.mk "Turma A"
        [("1ª Unidade", UnitReport.mk 8 [GradeDetail.mk "a1" "t1" 8 10])])
      (by decide)
      ("1ª Unidade", UnitReport.mk 8 [GradeDetail.mk "a1" "t1" 8 10])
      (by decide)⟩,
   (gradeReport_correct [c10Cls] [c10Act] "u1").2 "a1"⟩

end LMS
